import Mathlib

/-!
# Verification of the memecoin-analytics ingestion and read pipeline

A shallow embedding, in Lean 4, of the parts of the TypeScript service that the
specification's claims speak about:

* `tokenValidationService` (syntactic + on-chain mint validation, cleanup);
* `priceTrackingService.updateTokenPrice` and the price dispatch
  `getTokenPriceInSolOptimized` (dexScreenerService.ts);
* the BullMQ poller worker (`pollerWorker.ts`): worker tick,
  `addTokenForTracking`, `obliterateTokenJobs`, `removeTokenFromTracking`;
* `SocketService.subscribeToToken` (emitted events);
* the REST handlers `getTokenHistory` and `getTokenHolders`;
* `DexScreenerService.calculatePairScore`;
* `MetricService.getTokenMetrics`.

Network calls, the Redis cache, the database and the clock are passed in
explicitly as environment/state values; JavaScript numbers are modelled as
exact rationals (`ℚ`), timestamps as integers.
-/

set_option maxHeartbeats 1000000

namespace Memecoin

/-! ## JavaScript string helpers -/

/-- `needle` occurs at the head of `hay` (character-list version of a string
match at position 0). -/
def charsHavePre : List Char → List Char → Bool
  | [], _ => true
  | _ :: _, [] => false
  | a :: as, b :: bs => a == b && charsHavePre as bs

/-- `hay.includes(needle)` on character lists. -/
def charsInclude (needle : List Char) : List Char → Bool
  | [] => needle.isEmpty
  | c :: t => charsHavePre needle (c :: t) || charsInclude needle t

/-- JavaScript `hay.includes(needle)`. -/
def strIncludes (hay needle : String) : Bool :=
  charsInclude needle.data hay.data

/-- JavaScript `s.toLowerCase()` (ASCII, which covers every string the service
compares). -/
def strToLower (s : String) : String :=
  ⟨s.data.map Char.toLower⟩

/-! ## Base58 (`new PublicKey(mint)` format validation)

`@solana/web3.js` builds a `PublicKey` by base58-decoding the string and
requiring exactly 32 bytes. -/

def base58Alphabet : List Char :=
  "123456789ABCDEFGHJKLMNPQRSTUVWXYZabcdefghijkmnopqrstuvwxyz".data

def b58Index (c : Char) : Option Nat :=
  base58Alphabet.findIdx? (· == c)

def isBase58Char (c : Char) : Bool :=
  (b58Index c).isSome

/-- The numeric value of a base58 string. -/
def b58Value (cs : List Char) : Option Nat :=
  cs.foldl
    (fun acc c =>
      match acc, b58Index c with
      | some a, some d => some (a * 58 + d)
      | _, _ => none)
    (some 0)

def countLeadingOnes : List Char → Nat
  | '1' :: t => countLeadingOnes t + 1
  | _ => 0

/-- Number of bytes of the big-endian representation of `n` (fuel-driven so it
reduces in the kernel; 64 digits cover far more than a 44-character base58
string). -/
def byteLenAux : Nat → Nat → Nat
  | 0, _ => 0
  | fuel + 1, n => if n = 0 then 0 else byteLenAux fuel (n / 256) + 1

def byteLen (n : Nat) : Nat := byteLenAux 64 n

/-- Length in bytes of the base58 decoding of `s` (leading `'1'`s are single
zero bytes). -/
def b58DecodedLen (s : String) : Option Nat :=
  (b58Value s.data).map (fun n => countLeadingOnes s.data + byteLen n)

/-- `new PublicKey(s)` succeeds iff the decoding has exactly 32 bytes. -/
def isValidPublicKey (s : String) : Bool :=
  b58DecodedLen s == some 32

/-! ## Token validation (`tokenValidationService.ts`) -/

/-- The native (wrapped SOL) mint, `SOL_MINT` in the source. -/
def solMint : String := "So11111111111111111111111111111111111111112"

def TOKEN_PROGRAM_ID : String := "TokenkegQfeZyiNwAJbNbGKPFXCWuBvf9Ss623VQ5DA"

def TOKEN_2022_PROGRAM_ID : String := "TokenzQdBNbLqP5VEhdkAS6EPFLC1PHnBqCXEpPxuEb"

/-- `TokenValidationResult` of `tokenValidationService.ts`. -/
structure ValidationResult where
  isValid : Bool
  reason : Option String := none
  decimals : Option Int := none
  supply : Option ℚ := none
  name : Option String := none
  symbol : Option String := none
  deriving Repr, DecidableEq

/-- Outcome of one upstream round-trip: a value, or a thrown (network) error. -/
inductive ChainResp (α : Type) where
  | ok : α → ChainResp α
  | netErr : ChainResp α
  deriving Repr, DecidableEq

/-- `connection.getTokenSupply` payload: on-chain decimals and raw amount. -/
structure SupplyInfo where
  decimals : Int
  amount : ℚ
  deriving Repr, DecidableEq

/-- The chain as seen by one validation: the `getAccountInfo` round-trip
(`ok none` = account absent, `ok (some owner)` = account with that owner,
`netErr` = the RPC call threw) and the `getTokenSupply` round-trip. -/
structure ChainEnv where
  accountOwner : ChainResp (Option String)
  supplyInfo : ChainResp (Option SupplyInfo)
  deriving Repr, DecidableEq

/-- `validateAddressFormat` (tokenValidationService.ts): length 32–44, base58
alphabet, decodes to a legal public key. -/
def validateAddressFormat (tokenMint : String) : ValidationResult :=
  if tokenMint = "" then
    { isValid := false, reason := some "Invalid address format: not a string" }
  else if tokenMint.length < 32 ∨ tokenMint.length > 44 then
    { isValid := false, reason := some "Invalid address format: incorrect length" }
  else if ¬ tokenMint.data.all isBase58Char then
    { isValid := false, reason := some "Invalid address format: invalid base58 characters" }
  else if ¬ isValidPublicKey tokenMint then
    { isValid := false, reason := some "Invalid address format: not a valid Solana public key" }
  else
    { isValid := true }

/-- `validateOnChain` (tokenValidationService.ts:126-210).  Note that a thrown
network error in either round-trip is caught and turned into an *invalid*
verdict — the function has no transient-error outcome. -/
def validateOnChain (env : ChainEnv) : ValidationResult :=
  match env.accountOwner with
  | .netErr =>
    { isValid := false, reason := some "On-chain validation failed" }
  | .ok none =>
    { isValid := false, reason := some "Token mint account does not exist" }
  | .ok (some owner) =>
    if owner ≠ TOKEN_PROGRAM_ID ∧ owner ≠ TOKEN_2022_PROGRAM_ID then
      { isValid := false, reason := some "Account is not a token mint" }
    else
      match env.supplyInfo with
      | .netErr =>
        { isValid := false, reason := some "Unable to get token supply information" }
      | .ok none =>
        { isValid := false, reason := some "Unable to get token supply" }
      | .ok (some s) =>
        let supply := s.amount / (10 : ℚ) ^ s.decimals
        if s.decimals < 0 ∨ s.decimals > 18 then
          { isValid := false, reason := some "Invalid token decimals" }
        else if supply ≤ 0 then
          { isValid := false, reason := some "Token has no supply" }
        else
          { isValid := true, decimals := some s.decimals, supply := some supply }

/-- Inputs of one `validateTokenMint` call: the `token_validation:<mint>` cache
content (if present and unexpired) and the chain. -/
structure ValidationEnv where
  cached : Option ValidationResult
  chain : ChainEnv
  deriving Repr, DecidableEq

/-- `validateTokenMint` (tokenValidationService.ts:36-89): native mint special
case, then format check, then cache, then chain. -/
def validateTokenMint (tokenMint : String) (env : ValidationEnv) : ValidationResult :=
  if tokenMint = solMint then
    { isValid := true, decimals := some 9, supply := some 589000000,
      name := some "Solana", symbol := some "SOL" }
  else
    let fmt := validateAddressFormat tokenMint
    if ¬ fmt.isValid then fmt
    else
      match env.cached with
      | some r => r
      | none => validateOnChain env.chain

/-! ## Persistent store, cache and queue state -/

/-- One `TokenPrice` row (without its key). -/
structure PriceRow where
  priceUsd : ℚ
  priceInSol : ℚ
  marketCap : ℚ
  totalSupply : ℚ
  deriving Repr, DecidableEq

/-- One `PriceHistory` row. -/
structure HistEntry where
  tokenMint : String
  priceUsd : ℚ
  priceInSol : ℚ
  marketCap : ℚ
  timestamp : Int
  deriving Repr, DecidableEq

/-- `TokenPriceData`, the snapshot that is broadcast and upserted. -/
structure TokenPriceData where
  tokenMint : String
  priceUsd : ℚ
  priceInSol : ℚ
  marketCap : ℚ
  totalSupply : ℚ
  timestamp : Int
  deriving Repr, DecidableEq

/-- The persistent store: `TokenPrice` keyed by mint, append-only
`PriceHistory`. -/
structure Db where
  latest : List (String × PriceRow)
  history : List HistEntry
  deriving Repr, DecidableEq

/-- `deleteMany` on both tables for one mint. -/
def Db.purgeMint (db : Db) (mint : String) : Db :=
  ⟨db.latest.filter (fun kv => kv.1 != mint),
   db.history.filter (fun e => e.tokenMint != mint)⟩

/-- Prisma `upsert` on the `TokenPrice` primary key. -/
def upsertRow : List (String × PriceRow) → String → PriceRow → List (String × PriceRow)
  | [], mint, row => [(mint, row)]
  | kv :: t, mint, row =>
    if kv.1 == mint then (mint, row) :: t else kv :: upsertRow t mint row

/-- `findUnique` on the `TokenPrice` primary key. -/
def Db.findLatest (db : Db) (mint : String) : Option PriceRow :=
  (db.latest.find? (fun kv => kv.1 == mint)).map (·.2)

/-- A BullMQ repeatable-job entry. -/
structure RepeatJob where
  name : String
  id : String
  every : Nat
  deriving Repr, DecidableEq

/-- The shared state the scheduler, pricing engine and pub/sub touch:
the persistent store, the `invalid_token:<mint>` ban keys (with absolute expiry
in seconds), the repeatable jobs, the per-state job instances (by payload
mint), and the ordered list of `price_update` publications. -/
structure SysState where
  db : Db
  banned : List (String × Int)
  repeatJobs : List RepeatJob
  instanceJobs : List String
  published : List TokenPriceData
  deriving Repr, DecidableEq

/-- `redis.setex(invalid_token:<mint>, 86400, 'true')`: one live entry per
mint. -/
def setBan (banned : List (String × Int)) (mint : String) (expiry : Int) :
    List (String × Int) :=
  (mint, expiry) :: banned.filter (fun e => e.1 != mint)

/-- `redis.get(invalid_token:<mint>)` is non-null at time `now`. -/
def isBanned (st : SysState) (now : Int) (mint : String) : Bool :=
  st.banned.any (fun e => e.1 == mint && now < e.2)

def banExpiry (st : SysState) (mint : String) : Option Int :=
  (st.banned.find? (fun e => e.1 == mint)).map (·.2)

/-! ## Native-price dispatch (`getTokenPriceInSolOptimized`,
dexScreenerService.ts:696-748) -/

/-- What `dexScreenerService.getTokenPrice` hands back for a mint. -/
structure AggPair where
  priceUsd : ℚ
  priceInSol : ℚ
  deriving Repr, DecidableEq

/-- Inputs of one dispatch: the `token_price_sol:<mint>` cache entry
(price, write-timestamp in ms), the clock, the aggregator round-trip
(`netErr` = threw, `ok none` = null) and the on-chain pool round-trip
(`netErr` = threw or no pool). -/
structure PriceSolEnv where
  cache : Option (ℚ × Int)
  now : Int
  agg : ChainResp (Option AggPair)
  pool : ChainResp ℚ
  deriving Repr, DecidableEq

/-- The `try` body of `getTokenPriceInSolOptimized`: native mint → 1, fresh
cache → cached value, aggregator result with positive `priceInSol`, positive
pool price, otherwise `throw 'All pricing methods failed'`. -/
def getTokenPriceInSolRun (mint : String) (env : PriceSolEnv) : Except String ℚ :=
  if mint = solMint then .ok 1
  else
    let cachedHit : Option ℚ :=
      match env.cache with
      | some (p, ts) => if env.now - ts < 5000 then some p else none
      | none => none
    match cachedHit with
    | some p => .ok p
    | none =>
      let aggHit : Option ℚ :=
        match env.agg with
        | .ok (some r) => if 0 < r.priceInSol then some r.priceInSol else none
        | _ => none
      match aggHit with
      | some p => .ok p
      | none =>
        match env.pool with
        | .ok p => if 0 < p then .ok p else .error "All pricing methods failed"
        | .netErr => .error "All pricing methods failed"

/-- `getTokenPriceInSolOptimized`: the outer `catch` (line 744-747) turns any
failure of the body into the return value `0` — the promise never rejects. -/
def getTokenPriceInSolOptimized (mint : String) (env : PriceSolEnv) : ℚ :=
  match getTokenPriceInSolRun mint env with
  | .ok p => p
  | .error _ => 0

/-! ## Pricing engine (`PriceTrackingService`, dexScreenerService.ts) -/

/-- Error kinds `updateTokenPrice` can raise internally.  The worker
discriminates thrown messages by `includes('Invalid token mint')`, which maps
to the `invalidMint` constructor. -/
inductive UpdateErr where
  | invalidMint (reason : Option String)
  | priceFailed
  | txFailed
  deriving Repr, DecidableEq

/-- `PriceTrackingService.getTokenPrice` (dexScreenerService.ts:584-612):
validate, then assemble the snapshot from supply, the native-price dispatch
and the SOL/USD price.  `supply` and `solUsd` are the resolved values of
`getTokenSupply` and `getSolPriceUsd` (both have internal fallbacks and never
throw). -/
def getTokenPrice (mint : String) (venv : ValidationEnv) (supply : ℚ)
    (penv : PriceSolEnv) (solUsd : ℚ) (now : Int) : Except UpdateErr TokenPriceData :=
  let v := validateTokenMint mint venv
  if ¬ v.isValid then .error (.invalidMint v.reason)
  else
    let priceInSol := getTokenPriceInSolOptimized mint penv
    let priceUsd := priceInSol * solUsd
    .ok ⟨mint, priceUsd, priceInSol, priceUsd * supply, supply, now⟩

/-- `cleanupInvalidToken` (tokenValidationService.ts:212-255): delete both
tables' rows for the mint (plus cache keys, which are outside this state). -/
def cleanupInvalidToken (mint : String) (st : SysState) : SysState :=
  { st with db := st.db.purgeMint mint }

/-- The `try` body of `PriceTrackingService.updateTokenPrice`
(dexScreenerService.ts:1137-1188): validate (on invalid: purge, then throw
`Invalid token mint: …`), price, commit upsert+append in ONE transaction
(`txOk = false` models the transaction throwing: neither write lands and the
publish line is never reached), then publish `price_update`. -/
def updateTokenPriceRun (mint : String) (venv : ValidationEnv) (supply : ℚ)
    (penv : PriceSolEnv) (solUsd : ℚ) (txOk : Bool) (now : Int)
    (st : SysState) : SysState × Option UpdateErr :=
  let v := validateTokenMint mint venv
  if ¬ v.isValid then
    (cleanupInvalidToken mint st, some (.invalidMint v.reason))
  else
    match getTokenPrice mint venv supply penv solUsd now with
    | .error e => (st, some e)
    | .ok pd =>
      if txOk then
        ({ st with
            db := ⟨upsertRow st.db.latest mint
                     ⟨pd.priceUsd, pd.priceInSol, pd.marketCap, pd.totalSupply⟩,
                   st.db.history ++ [⟨mint, pd.priceUsd, pd.priceInSol, pd.marketCap, now⟩]⟩,
            published := st.published ++ [pd] },
         none)
      else (st, some .txFailed)

/-- `updateTokenPrice` as its callers see it: the catch block at
dexScreenerService.ts:1185-1187 only logs, so every error — including the
`Invalid token mint` throw — is swallowed and the promise resolves
normally. -/
def updateTokenPrice (mint : String) (venv : ValidationEnv) (supply : ℚ)
    (penv : PriceSolEnv) (solUsd : ℚ) (txOk : Bool) (now : Int)
    (st : SysState) : SysState :=
  (updateTokenPriceRun mint venv supply penv solUsd txOk now st).1

/-! ## Scheduler (`pollerWorker.ts`) -/

/-- `obliterateTokenJobs` (pollerWorker.ts:190-254): drop every repeatable job
whose name or id is `price-<mint>` and every per-state instance whose payload
is the mint. -/
def obliterateTokenJobs (mint : String) (st : SysState) : SysState :=
  let jobId := "price-" ++ mint
  { st with
    repeatJobs := st.repeatJobs.filter (fun j => !(j.name == jobId || j.id == jobId)),
    instanceJobs := st.instanceJobs.filter (fun m => m != mint) }

/-- `addTokenForTracking` (pollerWorker.ts:144-187), the `enrol` operation:
validate first (on invalid: set the 24 h ban key and stop), re-check the ban
list, obliterate, then add exactly one repeating job. -/
def addTokenForTracking (mint : String) (venv : ValidationEnv) (now : Int)
    (st : SysState) : SysState :=
  let v := validateTokenMint mint venv
  if ¬ v.isValid then
    { st with banned := setBan st.banned mint (now + 86400) }
  else if isBanned st now mint then st
  else
    let jobId := "price-" ++ mint
    let st' := obliterateTokenJobs mint st
    { st' with repeatJobs := st'.repeatJobs ++ [⟨jobId, jobId, 1000⟩] }

/-- `removeTokenFromTracking` (pollerWorker.ts:257-276), the `banAndRemove`
operation: set the ban key (24 h TTL) first, obliterate, purge both tables. -/
def removeTokenFromTracking (mint : String) (now : Int) (st : SysState) : SysState :=
  let st1 := { st with banned := setBan st.banned mint (now + 86400) }
  let st2 := obliterateTokenJobs mint st1
  { st2 with db := st2.db.purgeMint mint }

/-- How one worker tick ends (drives the `pollingJobsTotal` metric label). -/
inductive TickStatus where
  | skippedInvalid
  | success
  | invalid
  | error
  deriving Repr, DecidableEq

/-- The worker's `try/catch` around `updateTokenPrice` (pollerWorker.ts:37-51),
applied to the state after the call and to the error the call propagated:
`Invalid token mint` → ban-and-remove and complete; other errors rethrow. -/
def workerCatch (mint : String) (now : Int) (st : SysState) :
    Option UpdateErr → SysState × TickStatus
  | none => (st, .success)
  | some (.invalidMint _) => (removeTokenFromTracking mint now st, .invalid)
  | some _ => (st, .error)

/-- One invocation of the BullMQ worker (pollerWorker.ts:22-57) on payload
`{mint}`.  `updateTokenPrice` always resolves (its own catch swallows every
error), so the handler is applied to `none`: the `invalidMint` branch of
`workerCatch` is unreachable from a tick. -/
def workerTick (mint : String) (venv : ValidationEnv) (supply : ℚ)
    (penv : PriceSolEnv) (solUsd : ℚ) (txOk : Bool) (now : Int)
    (st : SysState) : SysState × TickStatus :=
  if isBanned st now mint then
    (removeTokenFromTracking mint now st, .skippedInvalid)
  else
    workerCatch mint now (updateTokenPrice mint venv supply penv solUsd txOk now st) none

/-! ## Subscription control plane (`SocketService.subscribeToToken`,
socketService.ts) -/

/-- Events the socket emits to the subscribing connection. -/
inductive SocketEvent where
  | subscriptionError (tokenMint : String) (code : Option String)
  | subscriptionStatus (tokenMint : String) (status : String)
  | priceUpdate (data : TokenPriceData)
  | subscriptionSuccess (tokenMint : String) (totalSubscriptions : Nat)
  deriving Repr, DecidableEq

/-- `subscribeToToken` (socketService.ts:98-195), as the connection-local
subscription set and the emitted event sequence.  `current` is
`getCurrentPrice` (the LatestState row); `fetched` is the discovery result
(`getTokenPrice`; `none` models the discovery block throwing, which rolls the
subscription back).  The global side effects of discovery
(`updateTokenPrice`, `addTokenForTracking`) are the functions above.  Note:
the function consults only `validateTokenMint` — never the
`invalid_token:<mint>` ban key. -/
def subscribeToToken (mint : String) (venv : ValidationEnv)
    (subs : List String) (current fetched : Option TokenPriceData) :
    List String × List SocketEvent :=
  let v := validateTokenMint mint venv
  if ¬ v.isValid then
    (subs, [.subscriptionError mint (some "INVALID_TOKEN_MINT")])
  else if subs.contains mint then
    (subs, [.subscriptionStatus mint "already_subscribed"])
  else
    let subs' := subs ++ [mint]
    match current with
    | some td => (subs', [.priceUpdate td, .subscriptionSuccess mint subs'.length])
    | none =>
      match fetched with
      | some td => (subs', [.priceUpdate td, .subscriptionSuccess mint subs'.length])
      | none => (subs, [.subscriptionError mint none])

/-! ## History endpoint (`getTokenHistory`, tokenController.ts:94-148) -/

/-- Window length in milliseconds; anything unrecognised falls to 1 h
(the zod schema only admits `1m`/`5m`/`1h`). -/
def windowMs : String → Int
  | "1m" => 60000
  | "5m" => 300000
  | _ => 3600000

/-- Ascending-timestamp order used by the `orderBy: { timestamp: 'asc' }`
clause. -/
def histLe (a b : HistEntry) : Prop := a.timestamp ≤ b.timestamp

instance : DecidableRel histLe := fun a b =>
  inferInstanceAs (Decidable (a.timestamp ≤ b.timestamp))

instance : IsTotal HistEntry histLe :=
  ⟨fun a b => Int.le_total a.timestamp b.timestamp⟩

instance : IsTrans HistEntry histLe :=
  ⟨fun _ _ _ h1 h2 => le_trans h1 h2⟩

/-- The rows the `findMany` returns: filter on mint and `timestamp ≥ now −
window`, sort ascending by timestamp, take 1000. -/
def getTokenHistory (db : Db) (mint : String) (w : String) (now : Int) :
    List HistEntry :=
  let startTime := now - windowMs w
  (((db.history.filter
      (fun e => e.tokenMint == mint && decide (startTime ≤ e.timestamp))).insertionSort
        histLe).take 1000)

/-! ## Pair scoring (`DexScreenerService.calculatePairScore`,
dexScreenerService.ts:400-437) -/

/-- The fields of a DexScreener pair the score reads (`?.` chains become
`Option`, `|| 0` becomes `getD 0`). -/
structure DexPair where
  dexId : String
  pairAddress : String
  liquidityUsd : Option ℚ
  volume24h : Option ℚ
  buys24h : Option ℚ
  sells24h : Option ℚ
  deriving Repr, DecidableEq

/-- `calculatePairScore`, term for term.  The established-venue bonus checks
`['raydium', 'orca', 'jupiter']` (line 413) — meteora is NOT in this set — and
the launchpad penalty is a negative number that is ADDED to the score
(lines 417-423, 432). -/
def calculatePairScore (p : DexPair) : ℚ :=
  let liquidityUsd := p.liquidityUsd.getD 0
  let volume24h := p.volume24h.getD 0
  let totalTxns := p.buys24h.getD 0 + p.sells24h.getD 0
  let liquidityScore := liquidityUsd * (3/10)
  let volumeScore := volume24h * (4/10)
  let txnScore := totalTxns * 200 * (3/10)
  let dexBonus : ℚ :=
    if ["raydium", "orca", "jupiter"].any
        (fun d => strIncludes (strToLower p.dexId) d) then 50000 else 0
  let isLaunchpad :=
    strIncludes (strToLower p.dexId) "pump" ||
    strIncludes (strToLower p.dexId) "launch" ||
    strIncludes p.pairAddress "pump"
  let launchpadPenalty : ℚ :=
    if isLaunchpad then (if 100000 < volume24h then -10000 else -100000) else 0
  let turnover := if 0 < liquidityUsd then volume24h / liquidityUsd else 0
  let activityBonus : ℚ := if (1/10 : ℚ) < turnover then 15000 else 0
  let recentActivityBonus : ℚ := if (50 : ℚ) < totalTxns then 5000 else 0
  liquidityScore + volumeScore + txnScore + dexBonus + launchpadPenalty +
    activityBonus + recentActivityBonus

/-- The score formula exactly as the claim words it: established set
`{raydium, orca, jupiter, meteora}`, and the penalty term entering as
`− penalty` with `penalty = −10000` (launch-like, volume > 100000),
`−100000` (launch-like) or `0`.  Written from the spec, to be compared with
`calculatePairScore`. -/
def claimPairScore (p : DexPair) : ℚ :=
  let liquidity := p.liquidityUsd.getD 0
  let volume := p.volume24h.getD 0
  let txnCount := p.buys24h.getD 0 + p.sells24h.getD 0
  let establishedInd : ℚ :=
    if ["raydium", "orca", "jupiter", "meteora"].any
        (fun d => strIncludes (strToLower p.dexId) d) then 1 else 0
  let launchLike :=
    strIncludes (strToLower p.dexId) "pump" ||
    strIncludes (strToLower p.dexId) "launch" ||
    strIncludes p.pairAddress "pump"
  let penalty : ℚ :=
    if launchLike then (if 100000 < volume then -10000 else -100000) else 0
  let turnoverInd : ℚ := if (1/10 : ℚ) < volume / liquidity then 1 else 0
  let activeInd : ℚ := if (50 : ℚ) < txnCount then 1 else 0
  3/10 * liquidity + 4/10 * volume + 3/10 * (200 * txnCount) +
    50000 * establishedInd - penalty + 15000 * turnoverInd + 5000 * activeInd

/-- The claim amended to what the code computes: established set
`{raydium, orca, jupiter}`, the (negative) penalty added, and the turnover
bonus gated on positive liquidity. -/
def amendedPairScore (p : DexPair) : ℚ :=
  let liquidity := p.liquidityUsd.getD 0
  let volume := p.volume24h.getD 0
  let txnCount := p.buys24h.getD 0 + p.sells24h.getD 0
  let establishedInd : ℚ :=
    if ["raydium", "orca", "jupiter"].any
        (fun d => strIncludes (strToLower p.dexId) d) then 1 else 0
  let launchLike :=
    strIncludes (strToLower p.dexId) "pump" ||
    strIncludes (strToLower p.dexId) "launch" ||
    strIncludes p.pairAddress "pump"
  let penalty : ℚ :=
    if launchLike then (if 100000 < volume then -10000 else -100000) else 0
  let turnoverInd : ℚ :=
    if 0 < liquidity ∧ (1/10 : ℚ) < volume / liquidity then 1 else 0
  let activeInd : ℚ := if (50 : ℚ) < txnCount then 1 else 0
  3/10 * liquidity + 4/10 * volume + 3/10 * (200 * txnCount) +
    50000 * establishedInd + penalty + 15000 * turnoverInd + 5000 * activeInd

/-! ## Top holders (`MetricService.getTopHolders`, metricService.ts:158-227 and
the `getTokenHolders` handler, tokenController.ts) -/

/-- One holder as the API returns it. -/
structure HolderBalance where
  address : String
  balance : ℚ
  percentage : ℚ
  deriving Repr, DecidableEq

/-- One element of `getTokenLargestAccounts`' result. -/
structure LargestAccount where
  address : String
  uiAmount : Option ℚ
  deriving Repr, DecidableEq

/-- `Array.prototype.slice(0, stop)`: a negative `stop` counts from the end. -/
def jsSliceTo {α : Type} (l : List α) (stop : Int) : List α :=
  if 0 ≤ stop then l.take stop.toNat
  else l.take (l.length - (-stop).toNat)

/-- Inputs of one `getTopHolders` call: validation inputs, the
`top_holders:<mint>:<limit>` cache entry, the `getTokenLargestAccounts`
round-trip, and the `totalSupply` that `getTokenInfo` resolves to (it has an
internal fallback and never throws once validation passed). -/
structure HoldersEnv where
  validation : ValidationEnv
  cached : Option (List HolderBalance)
  chainAccounts : ChainResp (List LargestAccount)
  tokenInfoSupply : ℚ
  deriving Repr, DecidableEq

/-- `getTopHolders`: validate (invalid → throw `Invalid token mint`), cache,
else slice the largest accounts to `limit` and join against the supply; any
upstream failure is caught and becomes `[]`. -/
def getTopHolders (mint : String) (limit : Int) (env : HoldersEnv) :
    Except String (List HolderBalance) :=
  if ¬ (validateTokenMint mint env.validation).isValid then
    .error "Invalid token mint"
  else
    match env.cached with
    | some hs => .ok hs
    | none =>
      match env.chainAccounts with
      | .netErr => .ok []
      | .ok accounts =>
        .ok ((jsSliceTo accounts limit).map (fun a =>
          let balance := a.uiAmount.getD 0
          let percentage :=
            if 0 < env.tokenInfoSupply then balance / env.tokenInfoSupply * 100 else 0
          ⟨a.address, balance, percentage⟩))

/-- The HTTP response of the holders endpoint. -/
inductive HoldersResp where
  | ok (data : List HolderBalance) (total : Nat) (limit : Int)
  | badRequest (error : String)
  deriving Repr, DecidableEq

def HoldersResp.isBadRequest : HoldersResp → Bool
  | .badRequest _ => true
  | .ok _ _ _ => false

/-- `const limit = parseInt(req.query.limit as string) || 10`: absent or `NaN`
(`none`) and `0` both fall back to the default 10. -/
def effLimit (limitQuery : Option Int) : Int :=
  match limitQuery with
  | none => 10
  | some n => if n = 0 then 10 else n

/-- The `getTokenHolders` handler (the controller holding it is the one that
routes `metricService`): `limitQuery` is `parseInt(req.query.limit)`
(`none` = absent or `NaN`).  The handler rejects only `limit > 100`; the
`HoldersQuerySchema` (min 1, max 50) is never applied by it. -/
def getTokenHoldersHandler (mint : String) (limitQuery : Option Int)
    (env : HoldersEnv) : HoldersResp :=
  if mint = "" then .badRequest "Token mint is required"
  else
    let limit : Int := effLimit limitQuery
    if 100 < limit then .badRequest "Limit cannot exceed 100"
    else
      match getTopHolders mint limit env with
      | .ok hs => .ok hs hs.length limit
      | .error e => .badRequest e

/-! ## Comprehensive metrics (`MetricService.getTokenMetrics`,
metricService.ts:250-297) -/

/-- One entry of a rug-check report. -/
structure RiskItem where
  name : String
  value : String
  description : String
  score : ℚ
  level : String
  deriving Repr, DecidableEq

/-- What `rugCheckService.getTokenRugCheck` (the `RugCheckService` in
socketService.ts) resolves to when the mint is indexed, restricted to the
fields `getTokenMetrics` reads (`score_normalised`, `risks`, `rugged`). -/
structure RugCheckData where
  score_normalised : ℚ
  risks : List RiskItem
  rugged : Bool
  deriving Repr, DecidableEq

structure RiskSummary where
  totalRisks : Nat
  highRisks : Nat
  mediumRisks : Nat
  lowRisks : Nat
  deriving Repr, DecidableEq

/-- `RugCheckService.getOverallRiskLevel` (socketService.ts):
`rugged ⇒ critical; score ≤ 20 ⇒ high; score ≤ 50 ⇒ medium; else low`. -/
def getOverallRiskLevel (score : ℚ) (rugged : Bool) : String :=
  if rugged then "critical"
  else if score ≤ 20 then "high"
  else if score ≤ 50 then "medium"
  else "low"

/-- `RugCheckService.getRiskSummary` (socketService.ts): count the risks per
level (`danger`/`warn`/`info` → high/medium/low). -/
def getRiskSummary (risks : List RiskItem) : RiskSummary :=
  ⟨risks.length,
   (risks.filter (fun r => r.level == "danger")).length,
   (risks.filter (fun r => r.level == "warn")).length,
   (risks.filter (fun r => r.level == "info")).length⟩

/-- The rug-check block of a metrics response. -/
structure RugCheckResult where
  score_normalised : ℚ
  risks : List RiskItem
  rugged : Bool
  riskLevel : String
  riskSummary : RiskSummary
  deriving Repr, DecidableEq

/-- `TokenMetricsResult` of metricService.ts. -/
structure TokenMetricsResult where
  tokenMint : String
  name : String
  symbol : String
  totalSupply : ℚ
  priceUsd : ℚ
  priceInSol : ℚ
  marketCap : ℚ
  concentrationRatio : ℚ
  lastUpdated : Int
  rugCheck : Option RugCheckResult
  deriving Repr, DecidableEq

/-- `TokenInfo` as `getTokenInfo` resolves it (with its internal fallbacks). -/
structure TokenInfo where
  name : String
  symbol : String
  decimals : Int
  totalSupply : ℚ
  deriving Repr, DecidableEq

/-- External state one `getTokenMetrics` call reads, all fetched in parallel:
token info, the LatestState row, the holders environment (for the
concentration ratio) and the rug-check report (`none` = not indexed). -/
structure MetricsEnv where
  validation : ValidationEnv
  tokenInfo : TokenInfo
  currentPrice : Option PriceRow
  holders : HoldersEnv
  rugCheckData : Option RugCheckData
  now : Int
  deriving Repr, DecidableEq

/-- `calculateConcentrationRatio` (metricService.ts:229-248): sum of the
top-10 holders' percentages capped at 100; any failure is caught and becomes
`0`. -/
def calculateConcentrationRatio (mint : String) (env : HoldersEnv) : ℚ :=
  match getTopHolders mint 10 env with
  | .ok hs => min (hs.foldl (fun s h => s + h.percentage) 0) 100
  | .error _ => 0

/-- `getTokenMetrics (tokenMint, _window)` (metricService.ts:250-297).  The
`_window` parameter is received and never read: the body only validates and
assembles data from the environment. -/
def getTokenMetrics (tokenMint : String) (_window : String) (env : MetricsEnv) :
    Except String TokenMetricsResult :=
  let v := validateTokenMint tokenMint env.validation
  if ¬ v.isValid then .error "Invalid token mint"
  else
    .ok
      { tokenMint := tokenMint
        name := env.tokenInfo.name
        symbol := env.tokenInfo.symbol
        totalSupply := env.tokenInfo.totalSupply
        priceUsd := (env.currentPrice.map (·.priceUsd)).getD 0
        priceInSol := (env.currentPrice.map (·.priceInSol)).getD 0
        marketCap := (env.currentPrice.map (·.marketCap)).getD 0
        concentrationRatio := calculateConcentrationRatio tokenMint env.holders
        lastUpdated := env.now
        rugCheck := env.rugCheckData.map (fun rc =>
          ⟨rc.score_normalised, rc.risks, rc.rugged,
           getOverallRiskLevel rc.score_normalised rc.rugged,
           getRiskSummary rc.risks⟩) }

/-! ## Scheduler-operation sequences -/

/-- Does a repeatable job carry the key `price-<mint>`?  (The criterion
`obliterateTokenJobs` removes by and `addTokenForTracking` adds by.) -/
def jobMatches (mint : String) (j : RepeatJob) : Bool :=
  j.name == "price-" ++ mint || j.id == "price-" ++ mint

/-- Number of repeatable jobs keyed `price-<mint>`. -/
def repeatJobCount (st : SysState) (mint : String) : Nat :=
  (st.repeatJobs.filter (jobMatches mint)).length

/-- A control operation on one mint's jobs: an enrolment (with the validation
inputs and clock it runs under) or a ban-and-remove. -/
inductive SchedOp where
  | enrol (venv : ValidationEnv) (now : Int)
  | banRemove (now : Int)

def applySchedOp (mint : String) (st : SysState) : SchedOp → SysState
  | .enrol venv now => addTokenForTracking mint venv now st
  | .banRemove now => removeTokenFromTracking mint now st

def applySchedOps (mint : String) : SysState → List SchedOp → SysState
  | st, [] => st
  | st, op :: ops => applySchedOps mint (applySchedOp mint st op) ops

/-- A sequence of enrolments (each with its validation inputs and clock). -/
def enrolAll (mint : String) : SysState → List (ValidationEnv × Int) → SysState
  | st, [] => st
  | st, (venv, t) :: rest => enrolAll mint (addTokenForTracking mint venv t st) rest

/-- The `token_price_sol` cache does not serve the request (absent or at
least 5 s old). -/
def cacheMiss (env : PriceSolEnv) : Prop :=
  match env.cache with
  | none => True
  | some (_, ts) => 5000 ≤ env.now - ts

/-- The aggregator yields nothing usable: it threw, returned null, or returned
a non-positive `priceInSol`. -/
def aggNoHit (env : PriceSolEnv) : Prop :=
  match env.agg with
  | .ok (some r) => r.priceInSol ≤ 0
  | _ => True

/-- The pool fallback yields nothing usable: it threw or the derived price is
non-positive. -/
def poolNoHit (env : PriceSolEnv) : Prop :=
  match env.pool with
  | .ok p => p ≤ 0
  | .netErr => True

/-! ## Concrete scenario values (used by the closed evaluations below) -/

/-- A 44-character base58 mint that decodes to 32 bytes (the canonical stable
mint). -/
def sampleMint : String := "EPjFWdd5AufqSSqeM2qN1xzybapC8G4wEGGkZwyTDt1v"

/-- Validation cache holds a `valid` verdict (within its 1 h TTL). -/
def venvCachedValid : ValidationEnv :=
  ⟨some { isValid := true }, ⟨.ok none, .ok none⟩⟩

/-- Validation cache holds an `invalid` verdict. -/
def venvCachedInvalid : ValidationEnv :=
  ⟨some { isValid := false, reason := some "Token mint account does not exist" },
   ⟨.ok none, .ok none⟩⟩

/-- No cached verdict and the chain round-trip throws a network error. -/
def venvNetErr : ValidationEnv := ⟨none, ⟨.netErr, .ok none⟩⟩

/-- Pricing environment in which every source fails: no cache, the aggregator
call throws, the pool call throws. -/
def penvAllFail : PriceSolEnv := ⟨none, 0, .netErr, .netErr⟩

def stEmpty : SysState := ⟨⟨[], []⟩, [], [], [], []⟩

def sampleJob : RepeatJob :=
  ⟨"price-" ++ sampleMint, "price-" ++ sampleMint, 1000⟩

/-- A state in which `sampleMint` is tracked: one latest row, one history row,
one repeating job, not banned. -/
def stTracked : SysState :=
  ⟨⟨[(sampleMint, ⟨1, 2, 3, 4⟩)], [⟨sampleMint, 1, 2, 3, 0⟩]⟩,
   [], [sampleJob], [sampleMint], []⟩

def tdSample : TokenPriceData := ⟨sampleMint, 1, 2, 3, 4, 0⟩

/-- A state with one already-delivered publication. -/
def stPub : SysState := ⟨⟨[], []⟩, [], [], [], [tdSample]⟩

/-- A pair on the meteora venue with every numeric field zero. -/
def meteoraPair : DexPair := ⟨"meteora", "addr", some 0, some 0, some 0, some 0⟩

/-- A launch-venue pair with every numeric field zero. -/
def pumpPair : DexPair := ⟨"pumpswap", "addr", some 0, some 0, some 0, some 0⟩

/-- History rows for the window query: two for `sampleMint`, one for another
mint. -/
def dbHist : Db :=
  ⟨[], [⟨sampleMint, 1, 2, 3, 50⟩, ⟨sampleMint, 1, 2, 3, 10⟩, ⟨"other", 1, 2, 3, 60⟩]⟩

/-- Holders environment: cached verdict valid, no holders cache, seven largest
accounts on chain, supply resolved to 0 (so no division is performed). -/
def envHolders : HoldersEnv :=
  ⟨venvCachedValid, none,
   .ok [⟨"a1", none⟩, ⟨"a2", none⟩, ⟨"a3", none⟩, ⟨"a4", none⟩, ⟨"a5", none⟩,
        ⟨"a6", none⟩, ⟨"a7", none⟩, ⟨"a8", none⟩, ⟨"a9", none⟩, ⟨"a10", none⟩,
        ⟨"a11", none⟩, ⟨"a12", none⟩],
   0⟩

theorem repeatJobCount_obliterate (mint : String) (st : SysState) :
    repeatJobCount (obliterateTokenJobs mint st) mint = 0 := by
  simp only [repeatJobCount, obliterateTokenJobs, jobMatches, List.filter_filter]
  rw [List.filter_congr (fun j _ => ?_), List.filter_false, List.length_nil]
  cases h : (j.name == "price-" ++ mint || j.id == "price-" ++ mint) <;> simp [h]

theorem repeatJobs_removeTokenFromTracking (mint : String) (now : Int)
    (st : SysState) :
    (removeTokenFromTracking mint now st).repeatJobs =
      (obliterateTokenJobs mint st).repeatJobs := by
  simp [removeTokenFromTracking, obliterateTokenJobs]

theorem repeatJobCount_removeTokenFromTracking (mint : String) (now : Int)
    (st : SysState) :
    repeatJobCount (removeTokenFromTracking mint now st) mint = 0 := by
  have h := repeatJobCount_obliterate mint st
  simp only [repeatJobCount] at h ⊢
  rw [repeatJobs_removeTokenFromTracking]
  simpa [obliterateTokenJobs] using h

/-- A successful enrolment (valid verdict, not banned) leaves exactly one
`price-<mint>` repeatable job, whatever was there before. -/
theorem repeatJobCount_enrol_success (mint : String) (venv : ValidationEnv)
    (now : Int) (st : SysState)
    (hv : (validateTokenMint mint venv).isValid = true)
    (hb : isBanned st now mint = false) :
    repeatJobCount (addTokenForTracking mint venv now st) mint = 1 := by
  have hob := repeatJobCount_obliterate mint st
  simp only [repeatJobCount] at hob ⊢
  simp only [addTokenForTracking, hv, hb, Bool.not_eq_true, not_true_eq_false,
    if_false, if_neg, Bool.false_eq_true]
  simp [List.filter_append, hob, jobMatches]

/-- Every single control operation leaves the `price-<mint>` repeat-job count
at most 1 if it was at most 1 before. -/
theorem repeatJobCount_op_le_one (mint : String) (st : SysState) (op : SchedOp)
    (h : repeatJobCount st mint ≤ 1) :
    repeatJobCount (applySchedOp mint st op) mint ≤ 1 := by
  cases op with
  | banRemove now => simp [applySchedOp, repeatJobCount_removeTokenFromTracking]
  | enrol venv now =>
    by_cases hv : (validateTokenMint mint venv).isValid = true
    · by_cases hb : isBanned st now mint = true
      · simpa [applySchedOp, addTokenForTracking, hv, hb] using h
      · rw [applySchedOp, repeatJobCount_enrol_success mint venv now st hv
          (by simpa using hb)]
    · simp only [Bool.not_eq_true] at hv
      simpa [applySchedOp, addTokenForTracking, hv, repeatJobCount] using h

/-! ## Claim theorems -/

/-- C1.  The claim says that when polling-time validation finds the mint
invalid, the Pricing Engine signals `InvalidMint` up to the Scheduler worker,
which then performs `banAndRemove(mint)`.  In the code the signal never
arrives: `updateTokenPrice` purges and throws `Invalid token mint: …`
(the body result below carries `invalidMint`), but its own catch block
swallows the throw, so the worker tick ends `success`, sets no ban key,
removes no repeating job — only the purge happened.  Evaluated at a tracked
mint whose cached verdict is invalid. -/
theorem c1_invalid_signal_swallowed :
    (updateTokenPriceRun sampleMint venvCachedInvalid 1000 penvAllFail 132 true 0
        stTracked).2 =
      some (.invalidMint (some "Token mint account does not exist")) ∧
    (workerTick sampleMint venvCachedInvalid 1000 penvAllFail 132 true 0
        stTracked).2 = .success ∧
    (workerTick sampleMint venvCachedInvalid 1000 penvAllFail 132 true 0
        stTracked).1.banned = [] ∧
    (workerTick sampleMint venvCachedInvalid 1000 penvAllFail 132 true 0
        stTracked).1.repeatJobs = [sampleJob] ∧
    (workerTick sampleMint venvCachedInvalid 1000 penvAllFail 132 true 0
        stTracked).1.db.latest = [] := by
  refine ⟨?_, ?_, ?_, ?_, ?_⟩ <;> decide

/-- C3.  At most one repeating job keyed `price-<mint>` survives any sequence
of `enrol(mint)` / `banAndRemove(mint)` operations (started from a state
already satisfying the invariant), and an enrolment whose validation succeeds
on an unbanned mint — in particular the second of two back-to-back
enrolments — leaves exactly one such job. -/
theorem c3_at_most_one_repeat_job (mint : String) (st : SysState)
    (ops : List SchedOp) (h : repeatJobCount st mint ≤ 1) :
    repeatJobCount (applySchedOps mint st ops) mint ≤ 1 ∧
    ∀ venv₁ venv₂ now₁ now₂,
      (validateTokenMint mint venv₂).isValid = true →
      isBanned (addTokenForTracking mint venv₁ now₁ (applySchedOps mint st ops))
          now₂ mint = false →
      repeatJobCount
        (addTokenForTracking mint venv₂ now₂
          (addTokenForTracking mint venv₁ now₁ (applySchedOps mint st ops)))
        mint = 1 := by
  constructor
  · induction ops generalizing st with
    | nil => simpa [applySchedOps] using h
    | cons op ops ih => exact ih _ (repeatJobCount_op_le_one mint st op h)
  · intro venv₁ venv₂ now₁ now₂ hv hb
    exact repeatJobCount_enrol_success mint venv₂ now₂ _ hv hb

/-- Witness for C3 at a concrete run: an enrol, a ban, an enrol under an
invalid verdict; and a double enrolment under valid verdicts. -/
theorem c3_witness :
    repeatJobCount
        (applySchedOps sampleMint stEmpty
          [.enrol venvCachedValid 0, .banRemove 5, .enrol venvCachedInvalid 10])
        sampleMint ≤ 1 ∧
    repeatJobCount
        (addTokenForTracking sampleMint venvCachedValid 200000
          (addTokenForTracking sampleMint venvCachedValid 100000 stEmpty))
        sampleMint = 1 :=
  ⟨(c3_at_most_one_repeat_job sampleMint stEmpty
      [.enrol venvCachedValid 0, .banRemove 5, .enrol venvCachedInvalid 10]
      (by decide)).1,
   (c3_at_most_one_repeat_job sampleMint stEmpty [] (by decide)).2
     venvCachedValid venvCachedValid 100000 200000 (by decide) (by decide)⟩

/-- C5.  The claim (and §7 of the spec) says a failed chain round-trip is
transient: logged, fallback, never a ban, never a purge.  In the code a
network error inside `validateOnChain` is caught and returned as
`isValid: false` (`On-chain validation failed`), after which `enrol` sets the
24 h `invalid_token` ban key and `updateTokenPrice` purges both persistent
tables — exactly what the claim excludes.  Evaluated at a chain-unavailable
environment. -/
theorem c5_network_error_bans_and_purges :
    validateTokenMint sampleMint venvNetErr =
      { isValid := false, reason := some "On-chain validation failed" } ∧
    (addTokenForTracking sampleMint venvNetErr 0 stTracked).banned =
      [(sampleMint, 86400)] ∧
    (updateTokenPrice sampleMint venvNetErr 1000 penvAllFail 132 true 0
        stTracked).db.latest = [] ∧
    (updateTokenPrice sampleMint venvNetErr 1000 penvAllFail 132 true 0
        stTracked).db.history = [] := by
  refine ⟨?_, ?_, ?_, ?_⟩ <;> decide

theorem banExpiry_setBan (st : SysState) (mint : String) (x : Int) :
    banExpiry { st with banned := setBan st.banned mint x } mint = some x := by
  unfold banExpiry setBan
  rw [List.find?_cons_of_pos _ (by simp)]
  rfl

theorem isBanned_of_expiry (st : SysState) (mint : String) (e now : Int)
    (hx : banExpiry st mint = some e) (hlt : now < e) :
    isBanned st now mint = true := by
  unfold banExpiry at hx
  cases hfind : st.banned.find? (fun p => p.1 == mint) with
  | none => simp [hfind] at hx
  | some p =>
    rw [hfind] at hx
    replace hx : p.2 = e := by simpa using hx
    have hmem := List.mem_of_find?_eq_some hfind
    have hp := List.find?_some hfind
    unfold isBanned
    rw [List.any_eq_true]
    exact ⟨p, hmem, by simp [hp, hx, hlt]⟩

theorem banExpiry_removeTokenFromTracking (st : SysState) (mint : String)
    (t0 : Int) :
    banExpiry (removeTokenFromTracking mint t0 st) mint = some (t0 + 86400) := by
  unfold removeTokenFromTracking obliterateTokenJobs banExpiry setBan
  rw [List.find?_cons_of_pos _ (by simp)]
  rfl

/-- While the ban key stays live (every enrolment happens in
`[bound − 86400, bound)` and the key expires no earlier than `bound`), a run
of enrolments keeps the repeat-job count at 0 and the key live. -/
theorem enrolAll_under_ban (mint : String) (bound : Int) :
    ∀ (ops : List (ValidationEnv × Int)) (st : SysState),
      repeatJobCount st mint = 0 →
      (∃ e, banExpiry st mint = some e ∧ bound ≤ e) →
      (∀ p ∈ ops, bound - 86400 ≤ p.2 ∧ p.2 < bound) →
      repeatJobCount (enrolAll mint st ops) mint = 0 := by
  intro ops
  induction ops with
  | nil =>
    intro st h1 _ _
    simpa [enrolAll] using h1
  | cons p rest ih =>
    intro st h1 h2 hops
    obtain ⟨venv, t⟩ := p
    obtain ⟨e, he, hbe⟩ := h2
    have ht := hops (venv, t) (List.mem_cons_self _ _)
    have hrest : ∀ q ∈ rest, bound - 86400 ≤ q.2 ∧ q.2 < bound :=
      fun q hq => hops q (List.mem_cons_of_mem _ hq)
    by_cases hv : (validateTokenMint mint venv).isValid = true
    · have hban : isBanned st t mint = true :=
        isBanned_of_expiry st mint e t he (lt_of_lt_of_le ht.2 hbe)
      have hstep : addTokenForTracking mint venv t st = st := by
        simp [addTokenForTracking, hv, hban]
      rw [enrolAll, hstep]
      exact ih st h1 ⟨e, he, hbe⟩ hrest
    · simp only [Bool.not_eq_true] at hv
      have hstep : addTokenForTracking mint venv t st =
          { st with banned := setBan st.banned mint (t + 86400) } := by
        simp [addTokenForTracking, hv]
      rw [enrolAll, hstep]
      refine ih _ (by simpa [repeatJobCount] using h1)
        ⟨t + 86400, banExpiry_setBan st mint (t + 86400), by linarith [ht.1]⟩ hrest

/-- C4 (amended).  After `banAndRemove(mint)` at `t0`, no `enrol(mint)` issued
while the 24 h key is live produces a repeating job; but the subscription path
never consults the ban key: it emits `subscription_error` with
`INVALID_TOKEN_MINT` exactly when the validator's verdict is invalid, and a
banned mint whose verdict is valid subscribes successfully. -/
theorem c4_ban_blocks_enrol_not_subscribe (mint : String) (st : SysState)
    (t0 : Int) (ops : List (ValidationEnv × Int))
    (hops : ∀ p ∈ ops, t0 ≤ p.2 ∧ p.2 < t0 + 86400) :
    repeatJobCount (enrolAll mint (removeTokenFromTracking mint t0 st) ops) mint = 0 ∧
    (∀ venv subs current fetched,
        (validateTokenMint mint venv).isValid = false →
        subscribeToToken mint venv subs current fetched =
          (subs, [.subscriptionError mint (some "INVALID_TOKEN_MINT")])) ∧
    (∀ venv subs td,
        (validateTokenMint mint venv).isValid = true →
        subs.contains mint = false →
        subscribeToToken mint venv subs (some td) none =
          (subs ++ [mint],
           [.priceUpdate td, .subscriptionSuccess mint (subs ++ [mint]).length])) := by
  refine ⟨?_, ?_, ?_⟩
  · refine enrolAll_under_ban mint (t0 + 86400) ops
      (removeTokenFromTracking mint t0 st)
      (repeatJobCount_removeTokenFromTracking mint t0 st)
      ⟨t0 + 86400, banExpiry_removeTokenFromTracking st mint t0, le_refl _⟩
      (fun p hp => ?_)
    have := hops p hp
    omega
  · intro venv subs current fetched hv
    simp [subscribeToToken, hv]
  · intro venv subs td hv hc
    simp only [subscribeToToken, hv, Bool.not_eq_true, not_false_eq_true,
      if_neg, hc, Bool.false_eq_true, if_false]
    simp [hc]

/-- C4 counterexample to the claim as stated: one hour into a live ban for
`sampleMint`, a subscription attempt whose cached validation verdict is valid
yields `price_update` + `subscription_success`, not `subscription_error` with
`INVALID_TOKEN_MINT`. -/
theorem c4_counterexample :
    isBanned (removeTokenFromTracking sampleMint 0 stEmpty) 3600 sampleMint = true ∧
    subscribeToToken sampleMint venvCachedValid [] none (some tdSample) =
      ([sampleMint], [.priceUpdate tdSample, .subscriptionSuccess sampleMint 1]) :=
  ⟨by decide, rfl⟩

/-- Witness for C4 at a concrete run: two enrolments during the ban (one with
a valid cached verdict, one invalid) leave no repeating job, and an invalid
verdict makes the subscription path emit the error. -/
theorem c4_witness :
    repeatJobCount
        (enrolAll sampleMint (removeTokenFromTracking sampleMint 0 stEmpty)
          [(venvCachedValid, 10), (venvCachedInvalid, 86000)]) sampleMint = 0 ∧
    subscribeToToken sampleMint venvCachedInvalid [] none none =
      ([], [.subscriptionError sampleMint (some "INVALID_TOKEN_MINT")]) :=
  ⟨(c4_ban_blocks_enrol_not_subscribe sampleMint stEmpty 0
      [(venvCachedValid, 10), (venvCachedInvalid, 86000)] (by decide)).1,
   (c4_ban_blocks_enrol_not_subscribe sampleMint stEmpty 0 [] (by decide)).2.1
     venvCachedInvalid [] none none (by decide)⟩

/-- C6.  The history query returns only entries of the mint with
`timestamp ≥ now − window`, ascending by timestamp, at most 1000 of them; and
whenever at most 1000 entries match, it returns exactly the matching entries
(as a permutation of the filtered store). -/
theorem c6_window_correctness (db : Db) (mint : String) (w : String) (now : Int) :
    List.Sorted histLe (getTokenHistory db mint w now) ∧
    (getTokenHistory db mint w now).length ≤ 1000 ∧
    (∀ e ∈ getTokenHistory db mint w now,
        e.tokenMint = mint ∧ now - windowMs w ≤ e.timestamp ∧ e ∈ db.history) ∧
    ((db.history.filter
        (fun e => e.tokenMint == mint &&
          decide (now - windowMs w ≤ e.timestamp))).length ≤ 1000 →
      (getTokenHistory db mint w now).Perm
        (db.history.filter
          (fun e => e.tokenMint == mint &&
            decide (now - windowMs w ≤ e.timestamp)))) := by
  have hsorted :
      List.Sorted histLe
        ((db.history.filter
          (fun e => e.tokenMint == mint &&
            decide (now - windowMs w ≤ e.timestamp))).insertionSort histLe) :=
    List.sorted_insertionSort histLe _
  have hperm :=
    List.perm_insertionSort histLe
      (db.history.filter
        (fun e => e.tokenMint == mint && decide (now - windowMs w ≤ e.timestamp)))
  refine ⟨?_, ?_, ?_, ?_⟩
  · exact List.Pairwise.sublist (List.take_sublist _ _) hsorted
  · simp only [getTokenHistory, List.length_take]
    exact inf_le_left
  · intro e he
    have h1 : e ∈ (db.history.filter
        (fun e => e.tokenMint == mint &&
          decide (now - windowMs w ≤ e.timestamp))).insertionSort histLe :=
      List.take_subset _ _ he
    have h2 := hperm.mem_iff.mp h1
    have h3 := List.mem_filter.mp h2
    have h4 := h3.2
    simp only [Bool.and_eq_true, beq_iff_eq, decide_eq_true_eq] at h4
    exact ⟨h4.1, h4.2, h3.1⟩
  · intro hlen
    have hlen2 :
        ((db.history.filter
          (fun e => e.tokenMint == mint &&
            decide (now - windowMs w ≤ e.timestamp))).insertionSort histLe).length ≤
          1000 := by
      rw [hperm.length_eq]; exact hlen
    simp only [getTokenHistory]
    rw [List.take_of_length_le hlen2]
    exact hperm

/-- Witness for C6: a three-row store, the 1 m window, `now = 60`. -/
theorem c6_witness :
    (getTokenHistory dbHist sampleMint "1m" 60).Perm
      (dbHist.history.filter
        (fun e => e.tokenMint == sampleMint &&
          decide (60 - windowMs "1m" ≤ e.timestamp))) :=
  (c6_window_correctness dbHist sampleMint "1m" 60).2.2.2 (by decide)

/-- C7 (amended).  On a cache miss the dispatch follows the claimed order —
native mint → 1, then the aggregator's positive `priceInSol`, then a positive
pool-derived price — but when every source fails the body's throw is caught
and the function RETURNS THE VALUE 0 instead of failing. -/
theorem c7_dispatch_order (mint : String) (env : PriceSolEnv)
    (hc : cacheMiss env) :
    (mint = solMint → getTokenPriceInSolOptimized mint env = 1) ∧
    (∀ r, mint ≠ solMint → env.agg = .ok (some r) → 0 < r.priceInSol →
      getTokenPriceInSolOptimized mint env = r.priceInSol) ∧
    (∀ p, mint ≠ solMint → aggNoHit env → env.pool = .ok p → 0 < p →
      getTokenPriceInSolOptimized mint env = p) ∧
    (mint ≠ solMint → aggNoHit env → poolNoHit env →
      getTokenPriceInSolRun mint env = .error "All pricing methods failed" ∧
      getTokenPriceInSolOptimized mint env = 0) := by
  have hcold :
      (match env.cache with
        | some (p, ts) => if env.now - ts < 5000 then some p else none
        | none => none) = (none : Option ℚ) := by
    unfold cacheMiss at hc
    match h : env.cache with
    | none => rfl
    | some (p, ts) =>
      rw [h] at hc
      simp only [if_neg (not_lt.mpr hc)]
  refine ⟨?_, ?_, ?_, ?_⟩
  · intro hm
    simp [getTokenPriceInSolOptimized, getTokenPriceInSolRun, hm]
  · intro r hm hagg hpos
    simp [getTokenPriceInSolOptimized, getTokenPriceInSolRun, hm, hcold, hagg, hpos]
  · intro p hm hagg hpool hpos
    have haggn :
        (match env.agg with
          | .ok (some r) => if 0 < r.priceInSol then some r.priceInSol else none
          | _ => none) = (none : Option ℚ) := by
      unfold aggNoHit at hagg
      match h : env.agg with
      | .netErr => rfl
      | .ok none => rfl
      | .ok (some r) =>
        rw [h] at hagg
        simp only [if_neg (not_lt.mpr hagg)]
    simp [getTokenPriceInSolOptimized, getTokenPriceInSolRun, hm, hcold, haggn,
      hpool, hpos]
  · intro hm hagg hpool
    have haggn :
        (match env.agg with
          | .ok (some r) => if 0 < r.priceInSol then some r.priceInSol else none
          | _ => none) = (none : Option ℚ) := by
      unfold aggNoHit at hagg
      match h : env.agg with
      | .netErr => rfl
      | .ok none => rfl
      | .ok (some r) =>
        rw [h] at hagg
        simp only [if_neg (not_lt.mpr hagg)]
    have hrun : getTokenPriceInSolRun mint env = .error "All pricing methods failed" := by
      unfold poolNoHit at hpool
      match h : env.pool with
      | .netErr =>
        simp [getTokenPriceInSolRun, hm, hcold, haggn, h]
      | .ok p =>
        rw [h] at hpool
        simp [getTokenPriceInSolRun, hm, hcold, haggn, h, if_neg (not_lt.mpr hpool)]
    exact ⟨hrun, by simp [getTokenPriceInSolOptimized, hrun]⟩

/-- C7 counterexample to the claim as stated: with the cache cold, the
aggregator throwing and the pool throwing, the body fails — and the operation
still produces the price value 0 (the promise resolves with 0; it does not
fail). -/
theorem c7_counterexample :
    getTokenPriceInSolRun sampleMint penvAllFail =
      .error "All pricing methods failed" ∧
    getTokenPriceInSolOptimized sampleMint penvAllFail = 0 :=
  ⟨rfl, rfl⟩

/-- Witness for C7: the native mint returns 1; a mint whose aggregator quote
is 2 SOL returns 2. -/
theorem c7_witness :
    getTokenPriceInSolOptimized solMint penvAllFail = 1 ∧
    getTokenPriceInSolOptimized sampleMint ⟨none, 0, .ok (some ⟨3, 2⟩), .netErr⟩ = 2 :=
  ⟨(c7_dispatch_order solMint penvAllFail trivial).1 rfl,
   (c7_dispatch_order sampleMint ⟨none, 0, .ok (some ⟨3, 2⟩), .netErr⟩ trivial).2.1
     ⟨3, 2⟩ (by decide) rfl (by decide)⟩

/-- C8 (amended).  For every pair, the code's tie-breaking score equals
`0.3·liquidity + 0.4·volume + 0.3·(200·txns) + 50000·[venue ∈ {raydium, orca,
jupiter}] + penalty + 15000·[liquidity > 0 ∧ volume/liquidity > 0.1] +
5000·[txns > 50]` with the (negative) penalty ADDED: the established set has
no meteora, and a launch-like pair scores lower, not higher. -/
theorem c8_score_formula (p : DexPair) :
    calculatePairScore p = amendedPairScore p := by
  have hno : ¬ ((1 : ℚ)/10 < 0) := by norm_num
  unfold calculatePairScore amendedPairScore
  by_cases hE : (["raydium", "orca", "jupiter"].any
      (fun d => strIncludes (strToLower p.dexId) d)) = true <;>
  by_cases hL : (strIncludes (strToLower p.dexId) "pump" ||
      strIncludes (strToLower p.dexId) "launch" ||
      strIncludes p.pairAddress "pump") = true <;>
  by_cases hV : (100000 : ℚ) < p.volume24h.getD 0 <;>
  by_cases hliq : (0 : ℚ) < p.liquidityUsd.getD 0 <;>
  by_cases hR : (1/10 : ℚ) < p.volume24h.getD 0 / p.liquidityUsd.getD 0 <;>
  by_cases hT : (50 : ℚ) < p.buys24h.getD 0 + p.sells24h.getD 0 <;>
  simp only [hE, hL, hV, hliq, hR, hT, hno, if_true, if_false, and_true, true_and,
    and_false, false_and, if_pos, if_neg, not_false_eq_true, Bool.false_eq_true] <;>
  ring

/-- C8 counterexample to the formula as claimed: an all-zero meteora pair
scores 50000 under the claim's formula (meteora in the established set) but 0
under the code; an all-zero launch-venue pair scores +100000 under the claim's
`− penalty` but −100000 under the code. -/
theorem c8_counterexample :
    claimPairScore meteoraPair = 50000 ∧ calculatePairScore meteoraPair = 0 ∧
    claimPairScore pumpPair = 100000 ∧ calculatePairScore pumpPair = -100000 := by
  have h1 : (["raydium", "orca", "jupiter", "meteora"].any
      (fun d => strIncludes (strToLower "meteora") d)) = true := by decide
  have h2 : (["raydium", "orca", "jupiter"].any
      (fun d => strIncludes (strToLower "meteora") d)) = false := by decide
  have h3 : (strIncludes (strToLower "meteora") "pump" ||
      strIncludes (strToLower "meteora") "launch" ||
      strIncludes "addr" "pump") = false := by decide
  have h4 : (["raydium", "orca", "jupiter", "meteora"].any
      (fun d => strIncludes (strToLower "pumpswap") d)) = false := by decide
  have h5 : (["raydium", "orca", "jupiter"].any
      (fun d => strIncludes (strToLower "pumpswap") d)) = false := by decide
  have h6 : (strIncludes (strToLower "pumpswap") "pump" ||
      strIncludes (strToLower "pumpswap") "launch" ||
      strIncludes "addr" "pump") = true := by decide
  refine ⟨?_, ?_, ?_, ?_⟩
  · simp only [claimPairScore, meteoraPair, h1, h3, Option.getD_some]
    norm_num
  · simp only [calculatePairScore, meteoraPair, h2, h3, Option.getD_some]
    norm_num
  · simp only [claimPairScore, pumpPair, h4, h6, Option.getD_some]
    norm_num
  · simp only [calculatePairScore, pumpPair, h5, h6, Option.getD_some]
    norm_num

/-- C9 (amended).  The holders endpoint rejects only `limit > 100`; a missing,
unparseable or zero limit silently becomes the default 10 (it is not
rejected), negative limits are accepted, and every OK response echoes the
effective limit and carries at most `limit` holder entries when the effective
limit is non-negative. -/
theorem c9_holders_limit (mint : String) (q : Option Int) (env : HoldersEnv)
    (hm : mint ≠ "") (hcache : env.cached = none) :
    (100 < effLimit q →
      getTokenHoldersHandler mint q env = .badRequest "Limit cannot exceed 100") ∧
    (∀ hs t l, getTokenHoldersHandler mint q env = .ok hs t l →
      l = effLimit q ∧ t = hs.length ∧
        (0 ≤ effLimit q → hs.length ≤ (effLimit q).toNat)) ∧
    effLimit (some 0) = 10 ∧ effLimit none = 10 := by
  refine ⟨?_, ?_, rfl, rfl⟩
  · intro h
    simp [getTokenHoldersHandler, hm, h]
  · intro hs t l hok
    unfold getTokenHoldersHandler at hok
    rw [if_neg hm] at hok
    by_cases h100 : 100 < effLimit q
    · rw [if_pos h100] at hok
      cases hok
    · rw [if_neg h100] at hok
      unfold getTopHolders at hok
      by_cases hv : (validateTokenMint mint env.validation).isValid = true
      · rw [if_neg (by simp [hv]), hcache] at hok
        cases hchain : env.chainAccounts with
        | netErr =>
          rw [hchain] at hok
          injection hok with e1 e2 e3
          subst e1; subst e3
          refine ⟨rfl, e2.symm, fun _ => by simp⟩
        | ok accounts =>
          rw [hchain] at hok
          injection hok with e1 e2 e3
          subst e1; subst e3
          refine ⟨rfl, e2.symm, fun hpos => ?_⟩
          rw [List.length_map]
          unfold jsSliceTo
          rw [if_pos hpos]
          simp [List.length_take]
      · rw [if_pos (by simp [hv])] at hok
        cases hok

/-- C9 counterexample to the claim as stated: `limit = 0` lies outside
`[1, 100]`, yet the request is NOT rejected with a 400 — the handler
substitutes the default 10 and answers OK. -/
theorem c9_counterexample :
    (getTokenHoldersHandler sampleMint (some 0) envHolders).isBadRequest = false := by
  decide

/-- Witness for C9: `limit = 101` is rejected with the 400 message. -/
theorem c9_witness :
    getTokenHoldersHandler sampleMint (some 101) envHolders =
      .badRequest "Limit cannot exceed 100" :=
  (c9_holders_limit sampleMint (some 101) envHolders (by decide) rfl).1 (by decide)

theorem find?_upsertRow (l : List (String × PriceRow)) (mint : String) (row : PriceRow) :
    (upsertRow l mint row).find? (fun kv => kv.1 == mint) = some (mint, row) := by
  induction l with
  | nil => simp [upsertRow, List.find?_cons_of_pos]
  | cons kv t ih =>
    by_cases h : kv.1 == mint
    · simp only [upsertRow, if_pos h]
      exact List.find?_cons_of_pos _ (by simp)
    · simp only [upsertRow, if_neg h]
      rw [List.find?_cons_of_neg _ (by simpa using h)]
      exact ih

theorem findLatest_upsert (db : Db) (mint : String) (row : PriceRow) :
    (Db.mk (upsertRow db.latest mint row) db.history).findLatest mint = some row := by
  simp [Db.findLatest, find?_upsertRow]

/-- C2.  Every `price_update` publication the pricing engine issues is
preceded, in the same step, by the transactional pair: afterwards the latest
row under the published mint holds exactly the published payload and an
identical-fields history entry exists.  Conversely each step either commits
upsert + append + publish together, or publishes nothing and leaves the store
untouched (or purged as a whole on an invalid mint) — never half of the
pair. -/
theorem c2_persist_then_publish (mint : String) (venv : ValidationEnv) (supply : ℚ)
    (penv : PriceSolEnv) (solUsd : ℚ) (txOk : Bool) (now : Int) (st : SysState) :
    (∀ pd, pd ∈ (updateTokenPrice mint venv supply penv solUsd txOk now st).published →
        pd ∈ st.published ∨
          ((updateTokenPrice mint venv supply penv solUsd txOk now st).db.findLatest
              pd.tokenMint =
            some ⟨pd.priceUsd, pd.priceInSol, pd.marketCap, pd.totalSupply⟩ ∧
          (⟨pd.tokenMint, pd.priceUsd, pd.priceInSol, pd.marketCap, now⟩ : HistEntry) ∈
            (updateTokenPrice mint venv supply penv solUsd txOk now st).db.history)) ∧
    (((updateTokenPrice mint venv supply penv solUsd txOk now st).published =
        st.published ∧
      ((updateTokenPrice mint venv supply penv solUsd txOk now st).db = st.db ∨
       (updateTokenPrice mint venv supply penv solUsd txOk now st).db =
         st.db.purgeMint mint)) ∨
     (∃ pd, getTokenPrice mint venv supply penv solUsd now = .ok pd ∧ txOk = true ∧
        pd.tokenMint = mint ∧
        (updateTokenPrice mint venv supply penv solUsd txOk now st).db =
          Db.mk
            (upsertRow st.db.latest mint
              ⟨pd.priceUsd, pd.priceInSol, pd.marketCap, pd.totalSupply⟩)
            (st.db.history ++ [⟨mint, pd.priceUsd, pd.priceInSol, pd.marketCap, now⟩]) ∧
        (updateTokenPrice mint venv supply penv solUsd txOk now st).published =
          st.published ++ [pd])) := by
  by_cases hv : (validateTokenMint mint venv).isValid = true
  · have hok : getTokenPrice mint venv supply penv solUsd now =
        .ok ⟨mint, getTokenPriceInSolOptimized mint penv * solUsd,
             getTokenPriceInSolOptimized mint penv,
             getTokenPriceInSolOptimized mint penv * solUsd * supply, supply, now⟩ := by
      simp [getTokenPrice, hv]
    have hrun : updateTokenPrice mint venv supply penv solUsd txOk now st =
        if txOk then
          { st with
              db := Db.mk
                (upsertRow st.db.latest mint
                  ⟨getTokenPriceInSolOptimized mint penv * solUsd,
                   getTokenPriceInSolOptimized mint penv,
                   getTokenPriceInSolOptimized mint penv * solUsd * supply, supply⟩)
                (st.db.history ++
                  [⟨mint, getTokenPriceInSolOptimized mint penv * solUsd,
                    getTokenPriceInSolOptimized mint penv,
                    getTokenPriceInSolOptimized mint penv * solUsd * supply, now⟩]),
              published := st.published ++
                [⟨mint, getTokenPriceInSolOptimized mint penv * solUsd,
                  getTokenPriceInSolOptimized mint penv,
                  getTokenPriceInSolOptimized mint penv * solUsd * supply, supply, now⟩] }
        else st := by
      unfold updateTokenPrice updateTokenPriceRun
      rw [if_neg (by simp [hv]), hok]
      cases txOk <;> simp
    cases htx : txOk with
    | false =>
      rw [htx] at hrun
      simp only [Bool.false_eq_true, if_false] at hrun
      constructor
      · intro pd hpd
        left
        rwa [hrun] at hpd
      · left
        rw [hrun]
        exact ⟨rfl, Or.inl rfl⟩
    | true =>
      rw [htx] at hrun
      simp only [if_true] at hrun
      constructor
      · intro pd hpd
        rw [hrun] at hpd
        rcases List.mem_append.mp hpd with h | h
        · left
          exact h
        · right
          have hpd2 := List.mem_singleton.mp h
          subst hpd2
          constructor
          · rw [hrun]
            exact findLatest_upsert st.db mint _
          · rw [hrun]
            exact List.mem_append_right _ (List.mem_singleton_self _)
      · right
        refine ⟨_, hok, rfl, rfl, ?_, ?_⟩
        · rw [hrun]
        · rw [hrun]
  · have hrun : updateTokenPrice mint venv supply penv solUsd txOk now st =
        { st with db := st.db.purgeMint mint } := by
      unfold updateTokenPrice updateTokenPriceRun cleanupInvalidToken
      rw [if_pos (by simp [hv])]
    constructor
    · intro pd hpd
      left
      rwa [hrun] at hpd
    · left
      rw [hrun]
      exact ⟨rfl, Or.inr rfl⟩

/-- Witness for C2 at a concrete step (a failing transaction): the previously
published message is accounted for on the left of the disjunction. -/
theorem c2_witness :
    tdSample ∈ stPub.published ∨
      ((updateTokenPrice sampleMint venvCachedValid 1000 penvAllFail 132 false 0
          stPub).db.findLatest tdSample.tokenMint =
        some ⟨tdSample.priceUsd, tdSample.priceInSol, tdSample.marketCap,
          tdSample.totalSupply⟩ ∧
      (⟨tdSample.tokenMint, tdSample.priceUsd, tdSample.priceInSol,
          tdSample.marketCap, 0⟩ : HistEntry) ∈
        (updateTokenPrice sampleMint venvCachedValid 1000 penvAllFail 132 false 0
          stPub).db.history) :=
  (c2_persist_then_publish sampleMint venvCachedValid 1000 penvAllFail 132 false 0
    stPub).1 tdSample (by decide)

/-- C10.  `getTokenMetrics` receives its window argument and never reads it:
with the external state fixed, any two windows produce identical results —
same name, symbol, supply, prices, market cap, concentration ratio and risk
data. -/
theorem c10_metrics_window_ignored (tokenMint : String) (w₁ w₂ : String)
    (env : MetricsEnv) :
    getTokenMetrics tokenMint w₁ env = getTokenMetrics tokenMint w₂ env := rfl

end Memecoin
